import Mathlib

/-!
Verification of the AI-Refrigerator-Analysis frontend against its design
specification.

The development shallowly embeds the parts of the repository that the
claims are about:

* the NDJSON progress-stream reading loop of `processS3Video`
  (`app/page.tsx`): `TextDecoder`-decoded chunks are split on `'\n'`,
  each non-blank line is fed to `JSON.parse`, and the parsed record is
  dispatched on its `type` field;
* the `apiRequest` / `checkBackendHealth` helpers (`lib/config.ts`);
* the relational state of `supabase-schema.sql` after all its
  migration statements have run (tables `refrigerator_diagnoses`,
  `chat_conversations`, `chat_messages`).

Byte streams are modelled after UTF-8 decoding, as lists of characters
(`Str := List Char`); network reads deliver a list of such chunks.
`JSON.parse` is modelled by a total, fuel-based recursive-descent parser
over the full JSON grammar (numbers are kept exactly as
mantissa × 10^exponent; JavaScript's binary floating point is not
modelled, which is irrelevant here because every number compared by a
theorem below is a small integer, represented exactly either way).
-/

/-- Characters of a decoded network chunk / JavaScript string. -/
abbrev Str := List Char

/-- Convert a Lean string literal to the character-list representation. -/
def s2l (s : String) : Str := s.toList

/-! ### JSON values and `JSON.parse` -/

/-- A parsed JSON value.  A number is kept exactly as
`mant × 10 ^ exp10` (so `10` parses to `jnum 10 0` and `1.5` to
`jnum 15 (-1)`). -/
inductive Json where
  | jnull
  | jbool (b : Bool)
  | jnum (mant : Int) (exp10 : Int)
  | jstr (s : Str)
  | jarr (elems : List Json)
  | jobj (fields : List (Str × Json))

/-- Whitespace that `JSON.parse` skips between tokens (RFC 8259). -/
def jsonWs (c : Char) : Bool :=
  c = ' ' || c = '\t' || c = '\n' || c = '\r'

/-- Drop leading JSON whitespace. -/
def skipWs (s : Str) : Str := s.dropWhile jsonWs

/-- Decimal digit test (code points 48-57). -/
def isDigit (c : Char) : Bool := 48 ≤ c.toNat && c.toNat ≤ 57

/-- Split a maximal run of decimal digits off the front of the input. -/
def takeDigits (s : Str) : Str × Str := s.span isDigit

/-- Numeric value of a digit run. -/
def digitsVal (ds : Str) : Nat :=
  ds.foldl (fun n c => 10 * n + (c.toNat - 48)) 0

/-- Value of one hexadecimal digit, if it is one (by code-point
offsets: `0`-`9` are 48-57, `A`-`F` 65-70, `a`-`f` 97-102). -/
def hexDigitVal (c : Char) : Option Nat :=
  let n := c.toNat
  if 48 ≤ n && n ≤ 57 then some (n - 48)
  else if 65 ≤ n && n ≤ 70 then some (n - 55)
  else if 97 ≤ n && n ≤ 102 then some (n - 87)
  else none

/-- The body of a JSON string after the opening quote: returns the decoded
contents and the input after the closing quote.  Mirrors `JSON.parse`:
the escapes `\" \\ \/ \b \f \n \r \t \uXXXX` are decoded, any other
escape is an error, and raw control characters (code points below 0x20)
are rejected.  (Lone-surrogate `\u` escapes, which JavaScript keeps as
unpaired code units, fall outside Lean's `Char` and are mapped to the
default character; no theorem below depends on them.) -/
def parseStrBody : Str → Option (Str × Str)
  | [] => none
  | '"' :: rest => some ([], rest)
  | '\\' :: rest =>
    match rest with
    | [] => none
    | 'u' :: a :: b :: c :: d :: rest2 =>
      match hexDigitVal a, hexDigitVal b, hexDigitVal c, hexDigitVal d with
      | some va, some vb, some vc, some vd =>
        match parseStrBody rest2 with
        | some (cs, r) => some (Char.ofNat (va * 0x1000 + vb * 0x100 + vc * 0x10 + vd) :: cs, r)
        | none => none
      | _, _, _, _ => none
    | e :: rest2 =>
      let esc : Option Char :=
        if e = '"' then some '"'
        else if e = '\\' then some '\\'
        else if e = '/' then some '/'
        else if e = 'b' then some (Char.ofNat 8)
        else if e = 'f' then some (Char.ofNat 12)
        else if e = 'n' then some '\n'
        else if e = 'r' then some '\r'
        else if e = 't' then some '\t'
        else none
      match esc with
      | some ch =>
        match parseStrBody rest2 with
        | some (cs, r) => some (ch :: cs, r)
        | none => none
      | none => none
  | c :: rest =>
    if c.toNat < 32 then none
    else
      match parseStrBody rest with
      | some (cs, r) => some (c :: cs, r)
      | none => none

/-- The optional `.digits` fraction part: at least one digit is
required after the dot (`JSON.parse` rejects `1.`); an absent fraction
is the empty digit run. -/
def parseFrac : Str → Option (Str × Str)
  | '.' :: rest =>
    match takeDigits rest with
    | ([], _) => none
    | (fds, after) => some (fds, after)
  | s => some ([], s)

/-- The optional `e`/`E` exponent part: an optional sign then at least
one digit (`JSON.parse` rejects `1e`); an absent exponent is 0. -/
def parseExp (s : Str) : Option (Int × Str) :=
  match s with
  | c :: rest =>
    if c = 'e' || c = 'E' then
      let (sgn, afterSign) : Int × Str :=
        match rest with
        | '+' :: t => (1, t)
        | '-' :: t => (-1, t)
        | t => (1, t)
      match takeDigits afterSign with
      | ([], _) => none
      | (eds, after) => some (sgn * (digitsVal eds : Int), after)
    else some (0, s)
  | [] => some (0, [])

/-- A JSON number, following the RFC 8259 grammar that `JSON.parse`
enforces: optional minus, an integer part with no leading zero, then
the fraction and exponent parts.  The result is the exact
mantissa × 10^exponent pair. -/
def parseNum (s : Str) : Option ((Int × Int) × Str) := do
  let (neg, afterSign) : Bool × Str :=
    match s with
    | '-' :: t => (true, t)
    | t => (false, t)
  let (intDs, afterInt) := takeDigits afterSign
  if intDs.isEmpty then none
  else if intDs.head? = some '0' ∧ intDs.length ≠ 1 then none
  else
    let (fracDs, afterFrac) ← parseFrac afterInt
    let (ex, afterExp) ← parseExp afterFrac
    let mag : Int := (digitsVal (intDs ++ fracDs) : Int)
    some ((if neg then -mag else mag, ex - (fracDs.length : Int)), afterExp)

mutual

/-- One JSON value, by recursive descent.  `fuel` only guarantees
totality: every recursive call first consumes at least one input
character, so the `length + 1` fuel supplied by `jsonParse` never runs
out on its input. -/
def parseVal : Nat → Str → Option (Json × Str)
  | 0, _ => none
  | fuel + 1, s =>
    match skipWs s with
    | 'n' :: 'u' :: 'l' :: 'l' :: r => some (.jnull, r)
    | 't' :: 'r' :: 'u' :: 'e' :: r => some (.jbool true, r)
    | 'f' :: 'a' :: 'l' :: 's' :: 'e' :: r => some (.jbool false, r)
    | '"' :: r =>
      match parseStrBody r with
      | some (cs, r2) => some (.jstr cs, r2)
      | none => none
    | '[' :: r =>
      (match skipWs r with
        | ']' :: r2 => some (.jarr [], r2)
        | r1 => match parseItems fuel r1 with
          | some (es, r2) => some (.jarr es, r2)
          | none => none)
    | '{' :: r =>
      (match skipWs r with
        | '}' :: r2 => some (.jobj [], r2)
        | r1 => match parsePairs fuel r1 with
          | some (fs, r2) => some (.jobj fs, r2)
          | none => none)
    | c :: rest =>
      if c = '-' || isDigit c then
        match parseNum (c :: rest) with
        | some ((m, e), r2) => some (.jnum m e, r2)
        | none => none
      else none
    | [] => none

/-- One-or-more comma-separated array elements, up to the closing `]`. -/
def parseItems : Nat → Str → Option (List Json × Str)
  | 0, _ => none
  | fuel + 1, s =>
    match parseVal fuel s with
    | none => none
    | some (v, r) =>
      match skipWs r with
      | ',' :: r2 =>
        (match parseItems fuel r2 with
          | some (vs, r3) => some (v :: vs, r3)
          | none => none)
      | ']' :: r2 => some ([v], r2)
      | _ => none

/-- One-or-more `"key": value` object members, up to the closing `}`. -/
def parsePairs : Nat → Str → Option (List (Str × Json) × Str)
  | 0, _ => none
  | fuel + 1, s =>
    match skipWs s with
    | '"' :: r =>
      (match parseStrBody r with
        | none => none
        | some (k, r1) =>
          match skipWs r1 with
          | ':' :: r2 =>
            (match parseVal fuel r2 with
              | none => none
              | some (v, r3) =>
                match skipWs r3 with
                | ',' :: r4 =>
                  (match parsePairs fuel r4 with
                    | some (fs, r5) => some ((k, v) :: fs, r5)
                    | none => none)
                | '}' :: r4 => some ([(k, v)], r4)
                | _ => none)
          | _ => none)
    | _ => none

end

/-- The model of JavaScript's `JSON.parse`: one value, with only
whitespace allowed around it; anything else is a parse error
(`none` here, a thrown `SyntaxError` in JavaScript). -/
def jsonParse (s : Str) : Option Json :=
  match parseVal (s.length + 1) s with
  | some (v, r) => if skipWs r = [] then some v else none
  | none => none

/-- Member lookup `obj.k` on a parsed JSON value: `none` models
JavaScript `undefined` (missing member, or member access on a
non-object primitive).  With duplicate keys `JSON.parse` keeps the last
binding, hence the left fold. -/
def Json.getField (j : Json) (k : Str) : Option Json :=
  match j with
  | .jobj fs => fs.foldl (fun acc p => if p.1 = k then some p.2 else acc) none
  | _ => none

/-! ### The `processS3Video` stream-reading loop (`app/page.tsx`)

The source, abbreviated:
```
const decoder = new TextDecoder()
while (true) {
  const { done, value } = await reader.read()
  if (done) break
  const chunk = decoder.decode(value)
  const lines = chunk.split('\n')
  for (const line of lines) {
    if (line.trim()) {
      try {
        const data = JSON.parse(line)
        if (data.type === 'progress') {
          setProgress(data.progress)
          setProgressMessage(data.message)
        } else if (data.type === 'complete') {
          setProgress(100)
          setProgressMessage("Analysis complete! Redirecting...")
          setTimeout(() => { router.push(`/history/` + data.diagnosisId) }, 1500)
        } else if (data.type === 'error') {
          throw new Error(data.message)
        }
      } catch (parseError) {
        console.debug('Skipping non-JSON line:', line)
      }
    }
  }
}
```
Note two load-bearing facts, both modelled exactly as written:

* `decoder.decode(value)` is called without `{stream: true}` and the
  split/parse happens per chunk — there is no carry-over buffer, so the
  model processes each chunk's line list independently;
* the `throw new Error(data.message)` of the `error` branch sits inside
  the `try` whose `catch (parseError)` swallows every exception, so an
  `error` event leaves the component state unchanged (it is logged as a
  skipped line) instead of aborting the run.
-/

/-- Characters removed by JavaScript `String.prototype.trim` (the
common ones; the loop only uses `trim` to skip blank lines, and a line
of exotic Unicode whitespace fails `JSON.parse` and is skipped anyway,
so the outcome is insensitive to the exact set). -/
def jsWs (c : Char) : Bool :=
  c = ' ' || c = '\t' || c = '\n' || c = '\r' ||
  c = (Char.ofNat 11) || c = (Char.ofNat 12) || c = (Char.ofNat 0xa0) || c = (Char.ofNat 0xfeff)

/-- JavaScript `line.trim()`. -/
def jsTrim (s : Str) : Str :=
  ((s.dropWhile jsWs).reverse.dropWhile jsWs).reverse

/-- JavaScript `chunk.split('\n')`: the pieces between newline
characters, in order, including empty pieces. -/
def splitNl : Str → List Str
  | [] => [[]]
  | '\n' :: rest => [] :: splitNl rest
  | c :: rest =>
    match splitNl rest with
    | [] => [[c]]
    | l :: ls => (c :: l) :: ls

/-- A typed event of the NDJSON progress protocol, as the loop
dispatches it: the payload fields are whatever `JSON.parse` produced
(`none` models a missing field, i.e. JavaScript `undefined`). -/
inductive Event where
  | progress (percent : Option Json) (message : Option Json)
  | complete (diagnosisId : Option Json)
  | error (message : Option Json)

/-- The component state that the loop updates.  `progress` and
`progressMessage` hold the last value passed to `setProgress` /
`setProgressMessage`; `error` the value passed to `setError`;
`redirects` the arguments of the `router.push` calls scheduled by
`setTimeout`, in scheduling order. -/
structure RunState where
  progress : Option Json
  progressMessage : Option Json
  error : Option Str
  redirects : List (Option Json)

/-- The literal passed to `setProgressMessage` on a `complete` event. -/
def completeMsg : Str := s2l "Analysis complete! Redirecting..."

/-- State after the `setProgress(0); setError(null);
setProgressMessage("Initializing analysis...")` prologue of
`processS3Video`. -/
def initialRunState : RunState :=
  { progress := some (Json.jnum 0 0)
    progressMessage := some (Json.jstr (s2l "Initializing analysis..."))
    error := none
    redirects := [] }

/-- The body of `for (const line of lines)`: a direct translation of
the dispatch (see the module comment above).  The `error` branch
returns the state unchanged because its `throw` is caught by the same
`catch (parseError)` that handles `JSON.parse` failures. -/
def handleLine (st : RunState) (line : Str) : RunState :=
  if jsTrim line = [] then st
  else
    match jsonParse line with
    | none => st
    | some data =>
      match data.getField (s2l "type") with
      | some (Json.jstr t) =>
        if t = s2l "progress" then
          { st with progress := data.getField (s2l "progress")
                    progressMessage := data.getField (s2l "message") }
        else if t = s2l "complete" then
          { st with progress := some (Json.jnum 100 0)
                    progressMessage := some (Json.jstr completeMsg)
                    redirects := st.redirects ++ [data.getField (s2l "diagnosisId")] }
        else if t = s2l "error" then
          st
        else st
      | _ => st

/-- One iteration of `while (true)` on a decoded chunk. -/
def processChunk (st : RunState) (chunk : Str) : RunState :=
  (splitNl chunk).foldl handleLine st

/-- The whole read loop over the stream's chunk sequence. -/
def processChunks (st : RunState) (chunks : List Str) : RunState :=
  chunks.foldl processChunk st

/-- The `fetch` response as `processS3Video` observes it: the `ok`
flag, and `body`, which is `none` when `response.body` is null (no
readable stream) and otherwise the decoded chunk sequence the reader
delivers. -/
structure StreamResponse where
  ok : Bool
  body : Option (List Str)

/-- The state written by `catch (error)`: `setError(message);
setProgress(0); setProgressMessage("")`. -/
def failedRunState (msg : Str) : RunState :=
  { progress := some (Json.jnum 0 0)
    progressMessage := some (Json.jstr [])
    error := some msg
    redirects := [] }

/-- `processS3Video` from the response on: the `!response.ok` and
null-body guards throw, landing in the outer catch with the generic
message; otherwise the chunk loop runs to end of stream. -/
def processS3Video (resp : StreamResponse) : RunState :=
  if !resp.ok then failedRunState (s2l "Failed to process S3 video")
  else
    match resp.body with
    | none => failedRunState (s2l "Failed to read response stream")
    | some chunks => processChunks initialRunState chunks

/-! ### The decoder's event sequence

The spec's Progress Stream Decoder (§4.2) is the loop above seen as an
event producer: `decodeLine` is the per-line part of the dispatch that
determines which typed event (if any) a line yields, and the state
updates of `handleLine` are exactly the fold of `applyEvent` over those
events (`handleLine_decodeLine` below).  This factoring lets claims
about "the yielded event sequence" and about the displayed state talk
about the same code. -/

/-- The typed events one line yields: none when the line is blank,
unparseable, not an object with a string `type`, or of an unknown
`type`; one event otherwise. -/
def decodeLine (line : Str) : List Event :=
  if jsTrim line = [] then []
  else
    match jsonParse line with
    | none => []
    | some data =>
      match data.getField (s2l "type") with
      | some (Json.jstr t) =>
        if t = s2l "progress" then
          [.progress (data.getField (s2l "progress")) (data.getField (s2l "message"))]
        else if t = s2l "complete" then
          [.complete (data.getField (s2l "diagnosisId"))]
        else if t = s2l "error" then
          [.error (data.getField (s2l "message"))]
        else []
      | _ => []

/-- Events of one chunk, in line order. -/
def decodeChunk (chunk : Str) : List Event :=
  (splitNl chunk).foldr (fun l acc => decodeLine l ++ acc) []

/-- Events of the whole chunked stream, in arrival order. -/
def decodeStream (chunks : List Str) : List Event :=
  chunks.foldr (fun c acc => decodeChunk c ++ acc) []

/-- The state update each event performs (the `error` event is a no-op:
its `throw` is swallowed by the enclosing catch). -/
def applyEvent (st : RunState) : Event → RunState
  | .progress p m => { st with progress := p, progressMessage := m }
  | .complete d =>
    { st with progress := some (Json.jnum 100 0)
              progressMessage := some (Json.jstr completeMsg)
              redirects := st.redirects ++ [d] }
  | .error _ => st

/-- Fold of `applyEvent` over an event list. -/
def applyEvents (st : RunState) (es : List Event) : RunState :=
  es.foldl applyEvent st

/-- Per line, the direct translation of the loop body agrees with
"decode the line's events, then apply them". -/
theorem handleLine_decodeLine (st : RunState) (line : Str) :
    handleLine st line = applyEvents st (decodeLine line) := by
  unfold handleLine decodeLine applyEvents
  split
  · rfl
  · split
    · rfl
    · split
      · split
        · rfl
        · split
          · rfl
          · split
            · rfl
            · rfl
      · rfl

/-- `applyEvents` splits over list append. -/
theorem applyEvents_append (st : RunState) (es fs : List Event) :
    applyEvents st (es ++ fs) = applyEvents (applyEvents st es) fs :=
  List.foldl_append ..

/-- Folding the loop body over a line list is applying the lines'
decoded events in order. -/
theorem foldLines_eq_applyEvents (ls : List Str) (st : RunState) :
    ls.foldl handleLine st =
      applyEvents st (ls.foldr (fun l acc => decodeLine l ++ acc) []) := by
  induction ls generalizing st with
  | nil => rfl
  | cons l ls ih =>
    simp only [List.foldl_cons, List.foldr_cons]
    rw [ih, handleLine_decodeLine, applyEvents_append]

/-- The chunk loop's state is the fold of the decoded event stream:
the displayed state is a function of the event sequence alone. -/
theorem processChunks_eq_applyEvents (chunks : List Str) (st : RunState) :
    processChunks st chunks = applyEvents st (decodeStream chunks) := by
  induction chunks generalizing st with
  | nil => rfl
  | cons c cs ih =>
    simp only [processChunks, List.foldl_cons, decodeStream, List.foldr_cons]
    rw [show List.foldl processChunk (processChunk st c) cs = processChunks (processChunk st c) cs from rfl,
      ih, applyEvents_append]
    congr 1
    exact foldLines_eq_applyEvents _ _

/-! ### Chunk-boundary lemmas -/

/-- Concatenate lines, terminating each with a newline. -/
def joinLines : List Str → Str
  | [] => []
  | l :: ls => l ++ '\n' :: joinLines ls

/-- `joinLines` over list append. -/
theorem joinLines_append (a b : List Str) :
    joinLines (a ++ b) = joinLines a ++ joinLines b := by
  induction a with
  | nil => rfl
  | cons l ls ih => simp [joinLines, ih]

/-- Unfolding `splitNl` on a non-newline head character. -/
theorem splitNl_cons_ne (c : Char) (cs : Str) (hc : c ≠ '\n') :
    splitNl (c :: cs) =
      match splitNl cs with
      | [] => [[c]]
      | l :: ls => (c :: l) :: ls := by
  rw [splitNl.eq_def]
  split <;> rename_i h <;> cases h <;> first | rfl | exact absurd rfl hc

/-- Splitting after a newline-free first line peels that line off. -/
theorem splitNl_cons_line (l : Str) (rest : Str) (hl : '\n' ∉ l) :
    splitNl (l ++ '\n' :: rest) = l :: splitNl rest := by
  induction l with
  | nil => rfl
  | cons c cs ih =>
    have hc : c ≠ '\n' := fun h => hl (h ▸ List.mem_cons_self c cs)
    have hcs : '\n' ∉ cs := fun h => hl (List.mem_cons_of_mem c h)
    rw [List.cons_append, splitNl_cons_ne c _ hc, ih hcs]

/-- Splitting a newline-terminated concatenation of newline-free lines
recovers the lines (plus the empty piece after the final newline, as
`"a\n".split('\n')` is `["a", ""]`). -/
theorem splitNl_joinLines (g : List Str) (hg : ∀ l ∈ g, '\n' ∉ l) :
    splitNl (joinLines g) = g ++ [[]] := by
  induction g with
  | nil => rfl
  | cons l ls ih =>
    rw [joinLines, splitNl_cons_line l _ (hg l (List.mem_cons_self l ls)),
      ih (fun x hx => hg x (List.mem_cons_of_mem l hx))]
    rfl

/-- An accumulator under an event-collecting fold factors out. -/
theorem foldr_events_acc {α : Type} (f : α → List Event) (xs : List α) (acc : List Event) :
    xs.foldr (fun x r => f x ++ r) acc = xs.foldr (fun x r => f x ++ r) [] ++ acc := by
  induction xs with
  | nil => rfl
  | cons x xs ih => simp only [List.foldr_cons, ih, List.append_assoc]

/-- The events of a chunk made of whole newline-terminated lines are
the lines' events in order. -/
theorem decodeChunk_joinLines (g : List Str) (hg : ∀ l ∈ g, '\n' ∉ l) :
    decodeChunk (joinLines g) = g.foldr (fun l acc => decodeLine l ++ acc) [] := by
  unfold decodeChunk
  rw [splitNl_joinLines g hg, List.foldr_append]
  rfl

/-- The decoded event sequence distributes over stream concatenation. -/
theorem decodeStream_append (a b : List Str) :
    decodeStream (a ++ b) = decodeStream a ++ decodeStream b := by
  unfold decodeStream
  rw [List.foldr_append, foldr_events_acc]

/-- The `diagnosisId` payloads of the `complete` events of a sequence. -/
def completesOf (es : List Event) : List (Option Json) :=
  es.filterMap (fun e => match e with
    | .complete d => some d
    | _ => none)

/-- Scheduled redirects accumulate exactly the `complete` events'
identifiers, in order. -/
theorem applyEvents_redirects (st : RunState) (es : List Event) :
    (applyEvents st es).redirects = st.redirects ++ completesOf es := by
  induction es generalizing st with
  | nil => simp [applyEvents, completesOf]
  | cons e es ih =>
    have step : applyEvents st (e :: es) = applyEvents (applyEvent st e) es := rfl
    rw [step, ih]
    cases e with
    | progress p m => simp [applyEvent, completesOf, List.filterMap_cons]
    | complete d => simp [applyEvent, completesOf, List.filterMap_cons]
    | error m => simp [applyEvent, completesOf, List.filterMap_cons]

/-! ### `apiRequest` and `checkBackendHealth` (`lib/config.ts`)

The source:
```
const response = await fetch(url, defaultOptions)
if (!response.ok) {
  let errorMessage = `HTTP error! status: ` + response.status
  try {
    const errorData = await response.json()
    errorMessage = errorData.detail || errorData.message || errorMessage
  } catch {
    // If we can't parse JSON, use the default message
  }
  throw new Error(errorMessage)
}
return response
```
and
```
export const checkBackendHealth = async (): Promise<boolean> => {
  try {
    const response = await fetch(..., { method: 'GET', ... })
    return response.ok
  } catch (error) {
    console.error('Backend health check failed:', error)
    return false
  }
}
```
-/

/-- Decimal digits of a natural number (fuel-based so the kernel can
evaluate it; the fuel `n + 1` always suffices since `n / 10 < n` for
`n ≥ 10`). -/
def natToStrAux : Nat → Nat → Str
  | 0, _ => []
  | fuel + 1, n =>
    if n < 10 then [Char.ofNat ('0'.toNat + n)]
    else natToStrAux fuel (n / 10) ++ [Char.ofNat ('0'.toNat + n % 10)]

/-- JavaScript number-to-string coercion for a natural number. -/
def natToStr (n : Nat) : Str := natToStrAux (n + 1) n

/-- An HTTP response as `apiRequest` observes it: the `ok` flag, the
numeric status, and the value `response.json()` resolves to (`none`
when the body is not parseable JSON, i.e. `response.json()` rejects). -/
structure ApiResponse where
  ok : Bool
  status : Nat
  jsonBody : Option Json

/-- JavaScript truthiness of a JSON value (`NaN` cannot come out of
`JSON.parse`, and a `jnum` is zero exactly when its mantissa is). -/
def jsTruthy : Json → Bool
  | .jnull => false
  | .jbool b => b
  | .jnum mant _ => mant != 0
  | .jstr s => !s.isEmpty
  | .jarr _ => true
  | .jobj _ => true

/-- Truthiness of a possibly-`undefined` value. -/
def jsTruthyO : Option Json → Bool
  | none => false
  | some j => jsTruthy j

/-- Whether a JSON value is `null` (member access on it throws). -/
def Json.isNull : Json → Bool
  | .jnull => true
  | _ => false

/-- The default `errorMessage` string. -/
def httpErrorMsg (status : Nat) : Str :=
  s2l "HTTP error! status: " ++ natToStr status

/-- The value `errorMessage` holds when `apiRequest` throws: the JS
expression `errorData.detail || errorData.message || errorMessage`,
with the default surviving when `response.json()` rejects or when
`errorData` is `null` (member access on `null` throws inside the same
`try`).  The thrown `Error` stringifies this value; the model keeps the
value itself. -/
def apiErrorValue (resp : ApiResponse) : Json :=
  let base := Json.jstr (httpErrorMsg resp.status)
  match resp.jsonBody with
  | none => base
  | some j =>
    if j.isNull then base
    else
      let d := j.getField (s2l "detail")
      let m := j.getField (s2l "message")
      if jsTruthyO d then d.getD base
      else if jsTruthyO m then m.getD base
      else base

/-- `apiRequest`, from the resolved `fetch` response on: returns the
response when `ok`, otherwise throws (models as `Except.error`) the
selected error value. -/
def apiRequest (resp : ApiResponse) : Except Json ApiResponse :=
  if resp.ok then .ok resp else .error (apiErrorValue resp)

/-- How the `fetch` inside `checkBackendHealth` can end: resolved with
a response, or rejected (network failure, DNS error, ...). -/
inductive FetchOutcome where
  | success (resp : ApiResponse)
  | networkFailure (message : Str)

/-- `checkBackendHealth`: `response.ok` on resolution, `false` from the
catch-all on rejection; no exception escapes. -/
def checkBackendHealth : FetchOutcome → Bool
  | .success resp => resp.ok
  | .networkFailure _ => false

/-! ### The persisted state (`supabase-schema.sql`)

The model is the schema after every statement of the file has run.  In
particular the trailing migration block replaces
`chat_conversations.summary_id` (which carried
`REFERENCES summaries(id) ON DELETE CASCADE`) by a plain nullable
`diagnosis_id TEXT` column: after
`ALTER TABLE chat_conversations DROP CONSTRAINT IF EXISTS
chat_conversations_summary_id_fkey` and `DROP COLUMN IF EXISTS
summary_id`, the only foreign key left in the schema is
`chat_messages.conversation_id REFERENCES chat_conversations(id) ON
DELETE CASCADE`.  `refrigerator_diagnoses` is referenced by nothing.

A SQL `DELETE` therefore removes matching rows of the target table
plus, for each removed row, the rows of tables whose `ON DELETE
CASCADE` foreign key references it — and nothing else.  Rows are
modelled with the schema's `NOT NULL` columns (plus the nullable
`diagnosis_id`); columns no claim mentions (timestamps, the optional
brand/model/severity columns, `ai_model`) are elided. -/

/-- A row of `refrigerator_diagnoses` (`id SERIAL PRIMARY KEY`, so a
number). -/
structure DiagnosisRow where
  id : Nat
  video_id : Str
  file_name : Str
  video_url : Str
  diagnosis_result : Str
  solutions : Str
deriving DecidableEq

/-- A row of `chat_conversations` after the migration: `diagnosis_id`
is a plain nullable `TEXT` column with no foreign key. -/
structure ConversationRow where
  id : Str
  diagnosis_id : Option Str
  title : Str
deriving DecidableEq

/-- A row of `chat_messages`. -/
structure MessageRow where
  id : Str
  conversation_id : Str
  role : Str
  content : Str
deriving DecidableEq

/-- The three tables. -/
structure Db where
  diagnoses : List DiagnosisRow
  conversations : List ConversationRow
  messages : List MessageRow
deriving DecidableEq

/-- The empty database. -/
def emptyDb : Db := { diagnoses := [], conversations := [], messages := [] }

/-- Constraint violations an `INSERT` can raise. -/
inductive InsertError where
  | checkViolation
  | fkViolation
deriving DecidableEq

/-- The `role` values the `CHECK (role IN ('user', 'assistant'))`
constraint accepts. -/
def roleUser : Str := s2l "user"

/-- See `roleUser`. -/
def roleAssistant : Str := s2l "assistant"

/-- `INSERT INTO refrigerator_diagnoses`. -/
def insertDiagnosis (db : Db) (d : DiagnosisRow) : Db :=
  { db with diagnoses := db.diagnoses ++ [d] }

/-- `INSERT INTO chat_conversations`: after the migration,
`diagnosis_id` is constrained by nothing, so any value (including one
naming no diagnosis) is accepted. -/
def insertConversation (db : Db) (c : ConversationRow) : Db :=
  { db with conversations := db.conversations ++ [c] }

/-- `INSERT INTO chat_messages`: the `CHECK` constraint on `role`, then
the foreign-key constraint on `conversation_id`; on a violation the
statement fails and the database is unchanged (the caller keeps `db`). -/
def insertChatMessage (db : Db) (m : MessageRow) : Except InsertError Db :=
  if m.role = roleUser ∨ m.role = roleAssistant then
    if db.conversations.any (fun c => c.id == m.conversation_id) then
      .ok { db with messages := db.messages ++ [m] }
    else .error .fkViolation
  else .error .checkViolation

/-- `DELETE FROM refrigerator_diagnoses WHERE id = did`: no foreign key
references this table, so no cascade fires and the other tables keep
every row. -/
def deleteDiagnosis (db : Db) (did : Nat) : Db :=
  { db with diagnoses := db.diagnoses.filter (fun d => d.id != did) }

/-- `DELETE FROM chat_conversations WHERE id = cid`: the `ON DELETE
CASCADE` of `chat_messages.conversation_id` also removes the
conversation's messages. -/
def deleteConversation (db : Db) (cid : Str) : Db :=
  { db with conversations := db.conversations.filter (fun c => c.id != cid)
            messages := db.messages.filter (fun m => m.conversation_id != cid) }

/-! ### Claim theorems -/

/-- The stream of one progress record, delivered as a single chunk. -/
def wholeChunks : List Str :=
  [s2l "\x7b\"type\":\"progress\",\"progress\":10,\"message\":\"hi\"\x7d\n"]

/-- The same byte stream, delivered split in the middle of the JSON
record. -/
def splitChunks : List Str :=
  [s2l "\x7b\"type\":\"progress\",\"progr", s2l "ess\":10,\"message\":\"hi\"\x7d\n"]

/-- C1, counterexample: the decoder is not chunk-boundary invariant.
Two chunkings of the same byte stream — unsplit, and split mid-record —
yield different event sequences: there is no pending-text buffer, so
each fragment of the split record fails `JSON.parse` on its own and the
record is dropped rather than reassembled. -/
theorem c1_chunk_invariance_fails :
    wholeChunks.flatten = splitChunks.flatten ∧
    decodeStream wholeChunks
      = [Event.progress (some (Json.jnum 10 0)) (some (Json.jstr (s2l "hi")))] ∧
    decodeStream splitChunks = [] ∧
    decodeStream wholeChunks ≠ decodeStream splitChunks := by
  have e1 : decodeStream wholeChunks
      = [Event.progress (some (Json.jnum 10 0)) (some (Json.jstr (s2l "hi")))] := rfl
  have e2 : decodeStream splitChunks = [] := rfl
  refine ⟨rfl, e1, e2, ?_⟩
  rw [e1, e2]
  exact List.cons_ne_nil _ _

/-- C1, amended: chunk-boundary invariance does hold for the splittings
that never cut a line: grouping newline-terminated lines into chunks in
any way yields the same event sequence as the unsplit stream. -/
theorem c1_line_boundary_invariance (gs : List (List Str))
    (hg : ∀ l ∈ gs.flatten, '\n' ∉ l) :
    decodeStream (gs.map joinLines) = decodeChunk (joinLines gs.flatten) := by
  induction gs with
  | nil => rfl
  | cons g rest ih =>
    have hg1 : ∀ l ∈ g, '\n' ∉ l := fun l hl => hg l (List.mem_append_left _ hl)
    have hg2 : ∀ l ∈ rest.flatten, '\n' ∉ l := fun l hl => hg l (List.mem_append_right _ hl)
    have lhs : decodeStream ((g :: rest).map joinLines)
        = decodeChunk (joinLines g) ++ decodeStream (rest.map joinLines) := rfl
    rw [lhs, ih hg2, decodeChunk_joinLines g hg1, decodeChunk_joinLines rest.flatten hg2,
      show (g :: rest).flatten = g ++ rest.flatten from rfl,
      decodeChunk_joinLines (g ++ rest.flatten) (fun l hl => hg l hl),
      List.foldr_append]
    exact (foldr_events_acc decodeLine g _).symm

/-- A progress line, used by witnesses. -/
def progressLine : Str := s2l "\x7b\"type\":\"progress\",\"progress\":10,\"message\":\"Analyzing\"\x7d"

/-- A complete line, used by witnesses. -/
def completeLine : Str := s2l "\x7b\"type\":\"complete\",\"diagnosisId\":\"d1\"\x7d"

/-- Witness for `c1_line_boundary_invariance` at a concrete two-line,
two-chunk grouping. -/
theorem c1_line_boundary_invariance_witness :
    (∀ l ∈ ([[progressLine], [completeLine]] : List (List Str)).flatten, '\n' ∉ l) ∧
    decodeStream ([[progressLine], [completeLine]].map joinLines)
      = decodeChunk (joinLines ([[progressLine], [completeLine]] : List (List Str)).flatten) :=
  ⟨by decide, c1_line_boundary_invariance [[progressLine], [completeLine]] (by decide)⟩

/-- The chunks of a run whose stream is exactly one `error` event. -/
def errorRunChunks : List Str :=
  [s2l "\x7b\"type\":\"error\",\"message\":\"model unavailable\"\x7d\n"]

/-- The response delivering `errorRunChunks`. -/
def errorRunResponse : StreamResponse := { ok := true, body := some errorRunChunks }

/-- C2, the code bug evaluated: the stream carries the `error` event
with message `model unavailable`, yet the run ends with the component
state identical to the initial one — `error` is still `null`, nothing
was surfaced, because `throw new Error(data.message)` is caught by the
same `catch (parseError)` that skips unparseable lines. -/
theorem c2_error_event_swallowed :
    decodeStream errorRunChunks
      = [Event.error (some (Json.jstr (s2l "model unavailable")))] ∧
    processS3Video errorRunResponse = initialRunState ∧
    (processS3Video errorRunResponse).error = none :=
  ⟨rfl, rfl, rfl⟩

/-- A progress-90 line as one chunk. -/
def progress90Chunk : Str := s2l "\x7b\"type\":\"progress\",\"progress\":90,\"message\":\"a\"\x7d\n"

/-- A progress-10 line as one chunk. -/
def progress10Chunk : Str := s2l "\x7b\"type\":\"progress\",\"progress\":10,\"message\":\"b\"\x7d\n"

/-- C4, counterexample: after a progress-90 event a progress-10 event
drops the displayed percent from 90 to 10 — `setProgress(data.progress)`
applies no clamp, so an out-of-order lower percent is shown. -/
theorem c4_progress_regresses :
    (processChunks initialRunState [progress90Chunk]).progress = some (Json.jnum 90 0) ∧
    (processChunks initialRunState [progress90Chunk, progress10Chunk]).progress
      = some (Json.jnum 10 0) ∧
    (10 : Int) < 90 :=
  ⟨rfl, rfl, by decide⟩

/-- C4, amended: the percent displayed after a progress event is that
event's carried value verbatim, whatever was displayed before — no
clamping to the previous maximum exists. -/
theorem c4_progress_verbatim (st : RunState) (chunks : List Str) (c : Str)
    (p m : Option Json) (h : decodeChunk c = [Event.progress p m]) :
    (processChunks st (chunks ++ [c])).progress = p := by
  rw [processChunks_eq_applyEvents, decodeStream_append,
    show decodeStream [c] = decodeChunk c ++ [] from rfl,
    List.append_nil, h, applyEvents_append]
  rfl

/-- Witness for `c4_progress_verbatim`: after a progress-90 chunk, a
progress-10 chunk displays exactly 10. -/
theorem c4_progress_verbatim_witness :
    decodeChunk progress10Chunk
      = [Event.progress (some (Json.jnum 10 0)) (some (Json.jstr (s2l "b")))] ∧
    (processChunks initialRunState ([progress90Chunk] ++ [progress10Chunk])).progress
      = some (Json.jnum 10 0) :=
  ⟨rfl, c4_progress_verbatim initialRunState [progress90Chunk] progress10Chunk _ _ rfl⟩

/-- A chunk with a `complete` event followed by a `progress` event. -/
def completeThenProgressChunk : Str :=
  s2l "\x7b\"type\":\"complete\",\"diagnosisId\":\"d1\"\x7d\n\x7b\"type\":\"progress\",\"progress\":50,\"message\":\"late\"\x7d\n"

/-- C5, counterexample: events after the first terminal event are not
ignored.  A redirect to `d1` was scheduled by the `complete` event, yet
the progress event after it overwrites the displayed percent from 100
down to 50. -/
theorem c5_post_terminal_not_ignored :
    (processChunks initialRunState [completeThenProgressChunk]).redirects
      = [some (Json.jstr (s2l "d1"))] ∧
    (processChunks initialRunState [completeThenProgressChunk]).progress
      = some (Json.jnum 50 0) ∧
    (50 : Int) ≠ 100 :=
  ⟨rfl, rfl, by decide⟩

/-- C5, amended: the loop never stops at a terminal event — every later
event is processed too (see `c5_post_terminal_not_ignored`); what does
hold is that the scheduled redirects are exactly the `complete` events'
identifiers in stream order, so the first `complete` determines the
first (and, on a well-behaved stream, only) redirect. -/
theorem c5_redirects_track_completes (st : RunState) (chunks : List Str) :
    (processChunks st chunks).redirects
      = st.redirects ++ completesOf (decodeStream chunks) := by
  rw [processChunks_eq_applyEvents]
  exact applyEvents_redirects st _

/-- C6: a line that fails `JSON.parse` yields no event, leaves the
whole component state (including the error field) unchanged, and the
remaining lines are processed exactly as if the malformed line had not
been there — malformed lines are never fatal. -/
theorem c6_malformed_line_skipped (st : RunState) (line : Str) (rest : List Str)
    (h : jsonParse line = none) :
    decodeLine line = [] ∧
    handleLine st line = st ∧
    (line :: rest).foldl handleLine st = rest.foldl handleLine st := by
  have hd : decodeLine line = [] := by
    unfold decodeLine
    split
    · rfl
    · rw [h]
  have hh : handleLine st line = st := by
    unfold handleLine
    split
    · rfl
    · rw [h]
  exact ⟨hd, hh, by rw [List.foldl_cons, hh]⟩

/-- A line that is not JSON. -/
def malformedLine : Str := s2l "not json"

/-- A well-formed line following the malformed one in the witness. -/
def wellFormedLine : Str := s2l "\x7b\"type\":\"progress\",\"progress\":20,\"message\":\"ok\"\x7d"

/-- Witness for `c6_malformed_line_skipped` at a concrete malformed
line followed by a well-formed one. -/
theorem c6_malformed_line_skipped_witness :
    jsonParse malformedLine = none ∧
    (decodeLine malformedLine = [] ∧
     handleLine initialRunState malformedLine = initialRunState ∧
     (malformedLine :: [wellFormedLine]).foldl handleLine initialRunState
       = [wellFormedLine].foldl handleLine initialRunState) :=
  ⟨rfl, c6_malformed_line_skipped initialRunState malformedLine [wellFormedLine] rfl⟩

/-- C7: when the call fails before any event is produced — non-success
HTTP status, or no readable body — the run ends in the failed state
carrying one of the two generic transport-failure messages, with no
progress or complete handling (no redirect is ever scheduled, the
percent is reset to 0, and an error is surfaced). -/
theorem c7_transport_failure (resp : StreamResponse)
    (h : resp.ok = false ∨ resp.body = none) :
    (processS3Video resp = failedRunState (s2l "Failed to process S3 video") ∨
     processS3Video resp = failedRunState (s2l "Failed to read response stream")) ∧
    (processS3Video resp).redirects = [] ∧
    (processS3Video resp).progress = some (Json.jnum 0 0) ∧
    (processS3Video resp).error ≠ none := by
  cases hok : resp.ok with
  | false =>
    have e : processS3Video resp = failedRunState (s2l "Failed to process S3 video") := by
      unfold processS3Video
      rw [hok]
      rfl
    refine ⟨Or.inl e, ?_, ?_, ?_⟩ <;> rw [e] <;> simp [failedRunState]
  | true =>
    have hb : resp.body = none := by
      rcases h with h | h
      · rw [hok] at h
        cases h
      · exact h
    have e : processS3Video resp = failedRunState (s2l "Failed to read response stream") := by
      unfold processS3Video
      rw [hok, hb]
      rfl
    refine ⟨Or.inr e, ?_, ?_, ?_⟩ <;> rw [e] <;> simp [failedRunState]

/-- Witness for `c7_transport_failure` at a concrete non-ok response. -/
theorem c7_transport_failure_witness :
    ((StreamResponse.mk false (some [])).ok = false ∨
      (StreamResponse.mk false (some [])).body = none) ∧
    ((processS3Video (StreamResponse.mk false (some []))
        = failedRunState (s2l "Failed to process S3 video") ∨
      processS3Video (StreamResponse.mk false (some []))
        = failedRunState (s2l "Failed to read response stream")) ∧
     (processS3Video (StreamResponse.mk false (some []))).redirects = [] ∧
     (processS3Video (StreamResponse.mk false (some []))).progress = some (Json.jnum 0 0) ∧
     (processS3Video (StreamResponse.mk false (some []))).error ≠ none) :=
  ⟨Or.inl rfl, c7_transport_failure (StreamResponse.mk false (some [])) (Or.inl rfl)⟩

/-- A diagnosis row used by the C3 counterexample. -/
def exampleDiagnosis : DiagnosisRow :=
  { id := 1
    video_id := s2l "v1"
    file_name := s2l "fridge1.mp4"
    video_url := s2l "https://bucket/key1"
    diagnosis_result := s2l "compressor failure"
    solutions := s2l "replace the start relay" }

/-- A conversation owned (by its `diagnosis_id` value) by
`exampleDiagnosis`. -/
def exampleConversation : ConversationRow :=
  { id := s2l "c1"
    diagnosis_id := some (s2l "1")
    title := s2l "fridge1.mp4" }

/-- A message in `exampleConversation`. -/
def exampleMessage : MessageRow :=
  { id := s2l "m1"
    conversation_id := s2l "c1"
    role := s2l "user"
    content := s2l "why is it leaking?" }

/-- The database holding exactly the three example rows. -/
def exampleDb : Db :=
  { diagnoses := [exampleDiagnosis]
    conversations := [exampleConversation]
    messages := [exampleMessage] }

/-- C3, counterexample: `exampleDb` is reachable through the schema's
own inserts, its conversation's `diagnosis_id` names diagnosis 1, and
deleting diagnosis 1 removes the diagnosis while the conversation and
its message survive as orphans — the migrated `diagnosis_id` column
carries no foreign key, so no cascade fires. -/
theorem c3_cascade_fails :
    insertChatMessage
        (insertConversation (insertDiagnosis emptyDb exampleDiagnosis) exampleConversation)
        exampleMessage
      = .ok exampleDb ∧
    exampleConversation.diagnosis_id = some (natToStr exampleDiagnosis.id) ∧
    (deleteDiagnosis exampleDb 1).diagnoses = [] ∧
    (deleteDiagnosis exampleDb 1).conversations = [exampleConversation] ∧
    (deleteDiagnosis exampleDb 1).messages = [exampleMessage] :=
  ⟨rfl, rfl, rfl, rfl, rfl⟩

/-- C3, amended: deleting a diagnosis touches only the
`refrigerator_diagnoses` table — the diagnosis is gone, but every
conversation (whatever its `diagnosis_id`) and every message survive;
the only cascade in the schema is one level down, from a conversation
to its messages. -/
theorem c3_delete_scope (db : Db) (did : Nat) (c : ConversationRow)
    (hc : c ∈ db.conversations) :
    (∀ d ∈ (deleteDiagnosis db did).diagnoses, d.id ≠ did) ∧
    c ∈ (deleteDiagnosis db did).conversations ∧
    (deleteDiagnosis db did).messages = db.messages ∧
    (∀ m ∈ (deleteConversation db c.id).messages, m.conversation_id ≠ c.id) := by
  refine ⟨?_, hc, rfl, ?_⟩
  · intro d hd
    have := (List.mem_filter.mp hd).2
    simpa using this
  · intro m hm
    have := (List.mem_filter.mp hm).2
    simpa using this

/-- Witness for `c3_delete_scope` at the example database. -/
theorem c3_delete_scope_witness :
    exampleConversation ∈ exampleDb.conversations ∧
    ((∀ d ∈ (deleteDiagnosis exampleDb 1).diagnoses, d.id ≠ 1) ∧
     exampleConversation ∈ (deleteDiagnosis exampleDb 1).conversations ∧
     (deleteDiagnosis exampleDb 1).messages = exampleDb.messages ∧
     (∀ m ∈ (deleteConversation exampleDb exampleConversation.id).messages,
       m.conversation_id ≠ exampleConversation.id)) :=
  ⟨by decide, c3_delete_scope exampleDb 1 exampleConversation (by decide)⟩

/-- C8: a message whose `role` is outside `{user, assistant}` is
rejected by the `CHECK` constraint — the insert returns a violation and
no row is stored — and any successful insert preserves the invariant
that every stored message's role is one of the two values. -/
theorem c8_role_check (db : Db) (m : MessageRow) :
    (m.role ≠ roleUser ∧ m.role ≠ roleAssistant →
      insertChatMessage db m = .error .checkViolation) ∧
    (∀ db', insertChatMessage db m = .ok db' →
      (∀ m2 ∈ db.messages, m2.role = roleUser ∨ m2.role = roleAssistant) →
      ∀ m2 ∈ db'.messages, m2.role = roleUser ∨ m2.role = roleAssistant) := by
  constructor
  · intro ⟨h1, h2⟩
    have hrole : ¬(m.role = roleUser ∨ m.role = roleAssistant) := by
      rintro (h | h) <;> [exact h1 h; exact h2 h]
    simp [insertChatMessage, hrole]
  · intro db' hok hinv m2 hm2
    by_cases hrole : m.role = roleUser ∨ m.role = roleAssistant
    · by_cases hfk : db.conversations.any (fun c => c.id == m.conversation_id) = true
      · unfold insertChatMessage at hok
        rw [if_pos hrole, if_pos hfk] at hok
        injection hok with hok
        rw [← hok] at hm2
        rcases List.mem_append.mp hm2 with h | h
        · exact hinv m2 h
        · rw [List.mem_singleton.mp h]
          exact hrole
      · unfold insertChatMessage at hok
        rw [if_pos hrole, if_neg hfk] at hok
        cases hok
    · unfold insertChatMessage at hok
      rw [if_neg hrole] at hok
      cases hok

/-- A message with the out-of-vocabulary role `system` (the spec's own
example). -/
def systemRoleMessage : MessageRow :=
  { id := s2l "m2"
    conversation_id := s2l "c1"
    role := s2l "system"
    content := s2l "x" }

/-- Witness for `c8_role_check`: inserting a `system`-role message is
rejected with the check violation. -/
theorem c8_role_check_witness :
    (systemRoleMessage.role ≠ roleUser ∧ systemRoleMessage.role ≠ roleAssistant) ∧
    insertChatMessage exampleDb systemRoleMessage = .error .checkViolation :=
  ⟨by decide, (c8_role_check exampleDb systemRoleMessage).1 (by decide)⟩

/-- A non-ok response whose body has a present-but-empty `detail` and a
non-empty `message`. -/
def emptyDetailResponse : ApiResponse :=
  { ok := false
    status := 500
    jsonBody := some (Json.jobj
      [(s2l "detail", Json.jstr []), (s2l "message", Json.jstr (s2l "boom"))]) }

/-- C9, counterexample: the `detail` field is present (the empty
string), yet the thrown message is `boom` from the `message` field, not
`detail` — `errorData.detail || errorData.message || errorMessage`
selects by JavaScript truthiness, not by presence, and the empty string
is falsy. -/
theorem c9_presence_vs_truthiness :
    (emptyDetailResponse.jsonBody.bind
      (fun j => j.getField (s2l "detail"))) = some (Json.jstr []) ∧
    apiRequest emptyDetailResponse = .error (Json.jstr (s2l "boom")) ∧
    s2l "boom" ≠ ([] : Str) :=
  ⟨rfl, rfl, by decide⟩

/-- C9, amended: `apiRequest` returns the response exactly when it is
ok; otherwise it throws, selecting the message by truthiness — a truthy
`detail` verbatim; else a truthy `message` verbatim; else (both absent
or falsy, body unparseable, or body `null`) the default
`HTTP error! status: <code>` string. -/
theorem c9_error_selection (resp : ApiResponse) :
    (apiRequest resp = .ok resp ↔ resp.ok = true) ∧
    (resp.ok = false →
      (∀ j d, resp.jsonBody = some j → j.isNull = false →
        j.getField (s2l "detail") = some d → jsTruthy d = true →
        apiRequest resp = .error d) ∧
      (∀ j mv, resp.jsonBody = some j → j.isNull = false →
        jsTruthyO (j.getField (s2l "detail")) = false →
        j.getField (s2l "message") = some mv → jsTruthy mv = true →
        apiRequest resp = .error mv) ∧
      (∀ j, resp.jsonBody = some j → j.isNull = false →
        jsTruthyO (j.getField (s2l "detail")) = false →
        jsTruthyO (j.getField (s2l "message")) = false →
        apiRequest resp = .error (Json.jstr (httpErrorMsg resp.status))) ∧
      ((resp.jsonBody = none ∨ (∃ j, resp.jsonBody = some j ∧ j.isNull = true)) →
        apiRequest resp = .error (Json.jstr (httpErrorMsg resp.status)))) := by
  constructor
  · constructor
    · intro h
      by_cases hok : resp.ok
      · exact hok
      · simp [apiRequest, hok] at h
    · intro hok
      simp [apiRequest, hok]
  · intro hok
    have hreq : apiRequest resp = .error (apiErrorValue resp) := by
      simp [apiRequest, hok]
    refine ⟨?_, ?_, ?_, ?_⟩
    · intro j d hb hnull hd ht
      rw [hreq]
      unfold apiErrorValue
      rw [hb]
      simp only [hnull, Bool.false_eq_true, if_false, hd]
      rw [if_pos]
      · rfl
      · simpa [jsTruthyO] using ht
    · intro j mv hb hnull hdf hm ht
      rw [hreq]
      unfold apiErrorValue
      rw [hb]
      simp only [hnull, Bool.false_eq_true, if_false]
      rw [if_neg (by simp [hdf]), hm, if_pos (by simpa [jsTruthyO] using ht)]
      rfl
    · intro j hb hnull hdf hmf
      rw [hreq]
      unfold apiErrorValue
      rw [hb]
      simp only [hnull, Bool.false_eq_true, if_false]
      rw [if_neg (by simp [hdf]), if_neg (by simp [hmf])]
    · intro hcase
      rw [hreq]
      unfold apiErrorValue
      rcases hcase with hb | ⟨j, hb, hnull⟩
      · rw [hb]
      · rw [hb]
        simp [hnull]

/-- Witness for `c9_error_selection`: a non-ok response with a truthy
`detail` surfaces that detail verbatim. -/
theorem c9_error_selection_witness :
    ((ApiResponse.mk false 404
        (some (Json.jobj [(s2l "detail", Json.jstr (s2l "not found"))]))).ok = false) ∧
    apiRequest (ApiResponse.mk false 404
        (some (Json.jobj [(s2l "detail", Json.jstr (s2l "not found"))])))
      = .error (Json.jstr (s2l "not found")) :=
  ⟨rfl,
    ((c9_error_selection (ApiResponse.mk false 404
        (some (Json.jobj [(s2l "detail", Json.jstr (s2l "not found"))])))).2 rfl).1
      (Json.jobj [(s2l "detail", Json.jstr (s2l "not found"))])
      (Json.jstr (s2l "not found")) rfl rfl rfl rfl⟩

/-- C10: `checkBackendHealth` is total — every fetch outcome, including
a rejected promise, yields a boolean (the catch-all returns `false`
rather than rethrowing) — and it returns `true` exactly when the health
request resolved with an ok status. -/
theorem c10_health_total (o : FetchOutcome) :
    checkBackendHealth o = true ↔ ∃ resp, o = .success resp ∧ resp.ok = true := by
  cases o with
  | success r =>
    constructor
    · intro h
      exact ⟨r, rfl, h⟩
    · rintro ⟨resp, heq, hok⟩
      cases heq
      exact hok
  | networkFailure m =>
    constructor
    · intro h
      cases h
    · rintro ⟨resp, heq, hok⟩
      cases heq
